import Mathlib

/-!
Verification of the indexing lifecycle manager in
`packages/mcp/src/handlers.ts` (class `ToolHandlers`).

The TypeScript handlers are shallowly embedded as pure Lean functions.
External collaborators (the `Context` / vector-database service, the file
system, the clock) are modelled as an explicit environment record whose
fields give the outcome of each external call; a call that may throw is an
`Except String` value.  Stateful snapshot mutation is explicit state
passing over `MState` (the in-memory snapshot plus the last persisted
snapshot).  Each externally visible action of a handler run (clearing the
remote index, removing a record, transitioning to `indexing`, saving the
snapshot, invoking the background `indexCodebase` call, …) is recorded in
an event trace so that ordering properties can be stated.

`snapshot.ts` and `utils.ts` are imported by `handlers.ts` but are not
part of the available sources; the operations of `SnapshotManager`,
`ensureAbsolutePath` and the `COLLECTION_LIMIT_MESSAGE` constant are
modelled from the specification (see the individual doc comments).
-/

namespace ClaudeContext

/-- Status of a codebase record, spec §3: `not_found | indexing | indexed
| indexfailed`. -/
inductive CStatus where
  | not_found
  | indexing
  | indexed
  | indexfailed
  deriving DecidableEq, Repr

/-- Modelled from the spec: the `IndexRecord` of §3 (one per codebase
path), as maintained by `SnapshotManager` (`snapshot.ts`, not among the
available sources).  `lastUpdated` is a wall-clock timestamp and is not
modelled. -/
structure IndexRecord where
  status : CStatus
  indexingPercentage : Option Nat := none
  indexedFiles : Option Nat := none
  totalChunks : Option Nat := none
  errorMessage : Option String := none
  lastAttemptedPercentage : Option Nat := none
  deriving DecidableEq, Repr

/-- The snapshot: a finite mapping path → record, represented as an
association list (spec §3 invariant: at most one record per path; lookups
take the first matching entry, so the list behaves as a map). -/
abbrev Snapshot := List (String × IndexRecord)

/-- Handler state: the in-memory snapshot and the last persisted
(on-disk) snapshot.  `saveCodebaseSnapshot` copies `mem` to `disk`. -/
structure MState where
  mem : Snapshot
  disk : Snapshot
  deriving DecidableEq, Repr

/-- Modelled from the spec: `SnapshotManager` record lookup (the first
entry for the path, as in a keyed document). -/
def lookupRecord (p : String) : Snapshot → Option IndexRecord
  | [] => none
  | e :: t => if e.1 = p then some e.2 else lookupRecord p t

/-- Modelled from the spec: removing a path's record entirely
(`removeIndexedCodebase` / `removeCodebaseCompletely`). -/
def eraseRecord (p : String) : Snapshot → Snapshot
  | [] => []
  | e :: t => if e.1 = p then eraseRecord p t else e :: eraseRecord p t

/-- Modelled from the spec: writing the record for one path (replaces any
previous record for that path, keeping the one-record-per-path
invariant). -/
def setRecord (p : String) (r : IndexRecord) (s : Snapshot) : Snapshot :=
  (p, r) :: eraseRecord p s

/-- Modelled from the spec: `SnapshotManager.getCodebaseStatus`; a path
absent from the snapshot is implicitly `not_found` (spec §3). -/
def getCodebaseStatus (p : String) (s : Snapshot) : CStatus :=
  ((lookupRecord p s).map (fun r => r.status)).getD .not_found

/-- The paths carrying a record in the snapshot. -/
def snapshotPaths (s : Snapshot) : List String :=
  s.map (fun e => e.1)

/-- Modelled from the spec: `SnapshotManager.getIndexedCodebases` - the
paths whose record is in state `indexed`. -/
def getIndexedCodebases (s : Snapshot) : List String :=
  (snapshotPaths s).filter (fun p => getCodebaseStatus p s = .indexed)

/-- Modelled from the spec: `SnapshotManager.getIndexingCodebases` - the
paths whose record is in state `indexing`. -/
def getIndexingCodebases (s : Snapshot) : List String :=
  (snapshotPaths s).filter (fun p => getCodebaseStatus p s = .indexing)

/-- Modelled from the spec: `setCodebaseIndexing(path, pct)` - the record
becomes `indexing` with the given percentage (spec §3: the percentage is
present only while `indexing`). -/
def setCodebaseIndexing (p : String) (pct : Nat) (s : Snapshot) : Snapshot :=
  setRecord p { status := .indexing, indexingPercentage := some pct } s

/-- Modelled from the spec: `setCodebaseIndexed(path, stats)` - the record
becomes `indexed` carrying `indexedFiles` / `totalChunks`. -/
def setCodebaseIndexed (p : String) (files chunks : Nat) (s : Snapshot) : Snapshot :=
  setRecord p { status := .indexed, indexedFiles := some files, totalChunks := some chunks } s

/-- Modelled from the spec: `setCodebaseIndexFailed(path, msg, pct)` - the
record becomes `indexfailed` carrying the error message and the last
attempted percentage. -/
def setCodebaseIndexFailed (p : String) (msg : String) (pct : Nat) (s : Snapshot) : Snapshot :=
  setRecord p { status := .indexfailed, errorMessage := some msg,
                lastAttemptedPercentage := some pct } s

/-- Modelled from the spec: `getIndexingProgress(path)` - the currently
recorded indexing percentage (0 when absent). -/
def getIndexingProgress (p : String) (s : Snapshot) : Nat :=
  ((lookupRecord p s).bind (fun r => r.indexingPercentage)).getD 0

/-- Modelled from the spec: `saveCodebaseSnapshot` persists the in-memory
snapshot. -/
def saveSnapshot (st : MState) : MState :=
  { st with disk := st.mem }

/-- Modelled from the spec: `ensureAbsolutePath` lives in `utils.ts`,
which is not among the available sources.  The spec (§3) keys all records
by canonical absolute path; the model treats every path as already
canonical, so resolution is the identity. -/
def ensureAbsolutePath (p : String) : String := p

/-- Modelled from the spec: the `COLLECTION_LIMIT_MESSAGE` constant is
imported from the core package (not among the available sources).  Its
exact wording is irrelevant; it is the terminal, non-retryable capacity
message of spec §7. -/
def COLLECTION_LIMIT_MESSAGE : String :=
  "Your Zilliz Cloud account has hit its collection limit."

/-- Outcome of inspecting one remote collection during cloud sync
(`handlers.ts` lines 65-111): the per-collection query may throw, return
no rows, return a row without metadata, return metadata that fails JSON
parsing, parse to an object without a string `codebasePath`, or yield a
codebase path. -/
inductive CollectionOutcome where
  | queryError
  | empty
  | noMetadata
  | parseError
  | noPath
  | path (p : String)
  deriving DecidableEq, Repr

/-- Environment of `syncIndexedCodebasesFromCloud`: the result of
`vectorDb.listCollections()` (which may throw) and, per collection name,
the outcome of the one-row metadata query. -/
structure CloudEnv where
  listCollections : Except String (List String)
  outcome : String → CollectionOutcome

def codeChunksPat : String := "code_chunks_"

def hybridCodeChunksPat : String := "hybrid_code_chunks_"

/-- `collectionName.startsWith(pat)`, stated on the character lists (the
string-level primitive does not reduce in proofs; on valid strings the
two agree). -/
def strStartsWith (s pre : String) : Bool :=
  pre.toList.isPrefixOf s.toList

/-- The set (as a list) of codebase paths discovered in the cloud:
`handlers.ts` lines 62-111.  Collections whose name matches neither
naming pattern are skipped; a per-collection error is caught and the loop
continues with the next collection. -/
def computeCloudCodebases (cloud : CloudEnv) (collections : List String) : List String :=
  collections.foldl
    (fun acc c =>
      if strStartsWith c codeChunksPat || strStartsWith c hybridCodeChunksPat then
        match cloud.outcome c with
        | .path p => acc ++ [p]
        | _ => acc
      else acc)
    []

/-- `syncIndexedCodebasesFromCloud`, `handlers.ts` lines 34-145.
If `listCollections` throws, the outer catch makes the whole sync a
no-op.  If the cloud has no collections, every locally `indexed` path is
removed and the snapshot is saved.  Otherwise, each locally `indexed`
path absent from the discovered cloud set is removed
(`removeIndexedCodebase`), and the snapshot is saved iff at least one
path was removed.  Cloud paths missing locally are never added. -/
def syncFromCloud (cloud : CloudEnv) (st : MState) : MState :=
  match cloud.listCollections with
  | .error _ => st
  | .ok collections =>
    if collections.isEmpty then
      let locals := getIndexedCodebases st.mem
      if locals.isEmpty then st
      else
        let mem := locals.foldl (fun m q => eraseRecord q m) st.mem
        ⟨mem, mem⟩
    else
      let cloudSet := computeCloudCodebases cloud collections
      let locals := getIndexedCodebases st.mem
      let toRemove := locals.filter (fun q => ¬ q ∈ cloudSet)
      if toRemove.isEmpty then st
      else
        let mem := toRemove.foldl (fun m q => eraseRecord q m) st.mem
        ⟨mem, mem⟩

/-- Result status of `VectorIndexService.indexCodebase` (spec §6):
`completed` or `limit_reached`. -/
inductive IStatus where
  | completed
  | limit_reached
  deriving DecidableEq, Repr

/-- The statistics object resolved by `context.indexCodebase`. -/
structure IndexStats where
  indexedFiles : Nat
  totalChunks : Nat
  status : IStatus
  deriving DecidableEq, Repr

/-- Environment of the background indexing task
(`startBackgroundIndexing`, `handlers.ts` lines 327-415).
`prepError`: an exception thrown by the preparation awaits (ignore-pattern
loading, `FileSynchronizer` initialisation, collection preparation) before
`indexCodebase` is reached, if any.  `progress`: the sequence of progress
callbacks delivered during `indexCodebase`, each a percentage paired with
whether the 2-second debounce window had elapsed (so the snapshot is
saved on that callback).  `result`: the outcome of the `indexCodebase`
call itself. -/
structure BgEnv where
  prepError : Option String
  progress : List (Nat × Bool)
  result : Except String IndexStats

/-- Environment of one handler invocation: the outcomes of every external
call the handler may make (file system checks, `context.hasIndex`,
`context.clearIndex`, the collection-limit preflight,
`context.semanticSearch`, the cloud sync environment and the background
task environment). -/
structure Env where
  pathExists : Bool
  isDirectory : Bool
  hasIndex : Bool
  clearIndexResult : Except String Unit
  checkCollectionLimit : Except String Bool
  semanticSearch : Except String (List String)
  cloud : CloudEnv
  bg : BgEnv

/-- Observable actions of a handler run, in execution order. -/
inductive Ev where
  | clearIndexEv (p : String)
  | removeIndexedEv (p : String)
  | setIndexingEv (p : String) (pct : Nat)
  | saveEv
  | fallbackWarnEv (splitter : String)
  | indexCallEv (p : String) (splitter : String)
  | setIndexedEv (p : String)
  | setFailedEv (p : String) (msg : String) (pct : Nat)
  deriving DecidableEq, Repr

/-- The `{content: [{text}], isError?}` response shape collapsed to its
text and error flag. -/
structure HandlerResult where
  text : String
  isError : Bool
  deriving DecidableEq, Repr

def mkError (t : String) : HandlerResult := ⟨t, true⟩

def mkOk (t : String) : HandlerResult := ⟨t, false⟩

def splitterAst : String := "ast"

def splitterLangchain : String := "langchain"

def invalidSplitterMsg (sp : String) : String :=
  "Error: Invalid splitter type '" ++ sp ++ "'. Must be 'ast' or 'langchain'."

def pathNotExistMsg (absolutePath original : String) : String :=
  "Error: Path '" ++ absolutePath ++ "' does not exist. Original input: '" ++ original ++ "'"

def notDirectoryMsg (absolutePath : String) : String :=
  "Error: Path '" ++ absolutePath ++ "' is not a directory"

def alreadyIndexingMsg (p : String) : String :=
  "Codebase '" ++ p ++ "' is already being indexed in the background. Please wait for completion."

def alreadyIndexedMsg (p : String) : String :=
  "Codebase '" ++ p ++ "' is already indexed. Use force=true to re-index."

def validationThrewMsg (e : String) : String :=
  "Error validating collection creation: " ++ e

def startedMsg (p sp : String) : String :=
  "Started background indexing for codebase '" ++ p ++ "' using " ++ sp.toUpper ++ " splitter."

def errorStartingMsg (e : String) : String :=
  "Error starting indexing: " ++ e

def chunkLimitWarning : String :=
  "\nWarning: Indexing stopped because the chunk limit (450,000) was reached. The index may be incomplete."

def completionBaseMsg (p sp : String) (stats : IndexStats) : String :=
  "Background indexing completed for '" ++ p ++ "' using " ++ sp.toUpper ++
    " splitter.\nIndexed " ++ toString stats.indexedFiles ++ " files, " ++
    toString stats.totalChunks ++ " chunks."

def completionMsg (p sp : String) (stats : IndexStats) : String :=
  completionBaseMsg p sp stats ++
    (if stats.status = .limit_reached then chunkLimitWarning else "")

def failedLogMsg (p e : String) : String :=
  "Indexing failed for " ++ p ++ ": " ++ e

/-- The progress callback of `handlers.ts` lines 371-384, applied to the
whole delivered progress sequence: each callback sets the `indexing`
percentage in memory and saves the snapshot when the debounce window has
elapsed. -/
def applyProgress (p : String) (l : List (Nat × Bool)) (st : MState) : MState :=
  l.foldl
    (fun acc pr =>
      let acc2 : MState := ⟨setCodebaseIndexing p pr.1 acc.mem, acc.disk⟩
      if pr.2 then saveSnapshot acc2 else acc2)
    st

/-- The events emitted by the progress callbacks. -/
def progressTrace (p : String) (l : List (Nat × Bool)) : List Ev :=
  l.flatMap (fun pr => Ev.setIndexingEv p pr.1 :: (if pr.2 then [Ev.saveEv] else []))

/-- `startBackgroundIndexing`, `handlers.ts` lines 327-415, run to
completion.  Returns the state after the task, the task's event trace and
its final log message.  The whole body is a `try`: any exception (from
the preparation awaits or from `indexCodebase` itself) is caught, the
record transitions to `indexfailed` with the error message and the last
recorded percentage, the snapshot is saved, and the task returns normally
- by construction no exception propagates out of this function.  A
non-AST splitter request logs a fallback warning (lines 340-343) and the
task proceeds with `this.context`, whose splitter is the AST splitter; a
separate langchain-splitter context is never constructed. -/
def startBackgroundIndexing (p : String) (splitterType : String) (bg : BgEnv)
    (st : MState) : MState × List Ev × String :=
  let warnTrace : List Ev :=
    if splitterType = splitterAst then [] else [.fallbackWarnEv splitterType]
  match bg.prepError with
  | some e =>
    let lastProgress := getIndexingProgress p st.mem
    let mem := setCodebaseIndexFailed p e lastProgress st.mem
    (⟨mem, mem⟩, warnTrace ++ [.setFailedEv p e lastProgress, .saveEv], failedLogMsg p e)
  | none =>
    let st1 := applyProgress p bg.progress st
    let tr1 := warnTrace ++ [.indexCallEv p splitterAst] ++ progressTrace p bg.progress
    match bg.result with
    | .error e =>
      let lastProgress := getIndexingProgress p st1.mem
      let mem := setCodebaseIndexFailed p e lastProgress st1.mem
      (⟨mem, mem⟩, tr1 ++ [.setFailedEv p e lastProgress, .saveEv], failedLogMsg p e)
    | .ok stats =>
      let mem := setCodebaseIndexed p stats.indexedFiles stats.totalChunks st1.mem
      (⟨mem, mem⟩, tr1 ++ [.setIndexedEv p, .saveEv], completionMsg p splitterType stats)

/-- Arguments of `handleIndexCodebase` after destructuring (`handlers.ts`
line 148).  Optional fields model `undefined` members, defaulted by the
`force || false` / `splitter || 'ast'` lines. -/
structure IndexArgs where
  path : String
  force : Option Bool := none
  splitter : Option String := none
  customExtensions : List String := []
  ignorePatterns : List String := []

/-- The tail of `handleIndexCodebase` from the collection-limit preflight
onward (`handlers.ts` lines 233-310): a thrown preflight is answered by
the inner catch; a `false` preflight returns `COLLECTION_LIMIT_MESSAGE`
as a terminal error without touching the snapshot; otherwise the record
transitions to `indexing` at 0, the snapshot is saved synchronously, the
background task is launched and the acknowledgment is returned
immediately (the returned state and trace include the completed
background task, i.e. the run-to-completion semantics of the detached
task). -/
def afterPreflight (absolutePath splitterType : String) (env : Env) (st : MState)
    (tr : List Ev) : HandlerResult × MState × List Ev :=
  match env.checkCollectionLimit with
  | .error e => (mkError (validationThrewMsg e), st, tr)
  | .ok false => (mkError COLLECTION_LIMIT_MESSAGE, st, tr)
  | .ok true =>
    let mem := setCodebaseIndexing absolutePath 0 st.mem
    let st2 : MState := ⟨mem, mem⟩
    let tr2 := tr ++ [.setIndexingEv absolutePath 0, .saveEv]
    let bgOut := startBackgroundIndexing absolutePath splitterType env.bg st2
    (mkOk (startedMsg absolutePath splitterType), bgOut.1, tr2 ++ bgOut.2.1)

/-- `handleIndexCodebase` after the initial cloud sync (`handlers.ts`
lines 158-310): splitter validation, path validation, the
already-indexing and already-indexed rejections, the force-reindex
removal/clear block (whose `clearIndex` may throw into the outer catch),
then the preflight tail. -/
def handleIndexAfterSync (a : IndexArgs) (env : Env) (st : MState) :
    HandlerResult × MState × List Ev :=
  let forceReindex := a.force.getD false
  let splitterType := a.splitter.getD splitterAst
  if ¬ splitterType = splitterAst ∧ ¬ splitterType = splitterLangchain then
    (mkError (invalidSplitterMsg splitterType), st, [])
  else
    let absolutePath := ensureAbsolutePath a.path
    if ¬ env.pathExists then
      (mkError (pathNotExistMsg absolutePath a.path), st, [])
    else if ¬ env.isDirectory then
      (mkError (notDirectoryMsg absolutePath), st, [])
    else if absolutePath ∈ getIndexingCodebases st.mem then
      (mkError (alreadyIndexingMsg absolutePath), st, [])
    else if ¬ forceReindex ∧ absolutePath ∈ getIndexedCodebases st.mem then
      (mkError (alreadyIndexedMsg absolutePath), st, [])
    else
      let doRemove := forceReindex ∧ absolutePath ∈ getIndexedCodebases st.mem
      let st1 : MState := if doRemove then ⟨eraseRecord absolutePath st.mem, st.disk⟩ else st
      let tr1 : List Ev := if doRemove then [.removeIndexedEv absolutePath] else []
      if forceReindex ∧ env.hasIndex then
        match env.clearIndexResult with
        | .error e => (mkError (errorStartingMsg e), st1, tr1)
        | .ok _ => afterPreflight absolutePath splitterType env st1
            (tr1 ++ [.clearIndexEv absolutePath])
      else
        afterPreflight absolutePath splitterType env st1 tr1

/-- `handleIndexCodebase` body, `handlers.ts` lines 147-325 (the part
inside the `try`): the cloud sync runs first, then the validation and
indexing pipeline. -/
def handleIndexCodebaseBody (a : IndexArgs) (env : Env) (st : MState) :
    HandlerResult × MState × List Ev :=
  handleIndexAfterSync a env (syncFromCloud env.cloud st)

/-- `handleIndexCodebase` as invoked by a caller.  The argument
destructuring at `handlers.ts` line 148 runs *before* the `try` block
opens at line 154, so a `null`/`undefined` `args` throws a `TypeError`
that escapes the handler (an `Except.error`); for any present argument
object the body runs inside the `try`/`catch` and always produces a
structured result. -/
def handleIndexCodebaseOp (args : Option IndexArgs) (env : Env) (st : MState) :
    Except String (HandlerResult × MState × List Ev) :=
  match args with
  | none => .error "TypeError: cannot destructure property of null or undefined"
  | some a => .ok (handleIndexCodebaseBody a env st)

/-- Arguments of `handleSearchCode` after destructuring (`handlers.ts`
line 418). -/
structure SearchArgs where
  path : String
  query : String
  limit : Option Nat := none
  extensionFilter : Option (List String) := none

/-- A well-formed extension per the validation of `handlers.ts` line 489:
starts with a dot, longer than the dot, and free of whitespace. -/
def validExtension (e : String) : Bool :=
  strStartsWith e (".") && e.length > 1 && !(e.toList.any (fun c => c.isWhitespace))

def invalidExtensionsMsg : String :=
  "Error: Invalid file extensions in extensionFilter. Use proper extensions like '.ts', '.py'."

def notIndexedSearchMsg (p : String) : String :=
  "Error: Codebase '" ++ p ++ "' is not indexed. Please index it first using the index_codebase tool."

def noResultsMsg (q p : String) : String :=
  "No results found for query: \"" ++ q ++ "\" in codebase '" ++ p ++ "'"

def foundResultsMsg (q p : String) (n : Nat) : String :=
  "Found " ++ toString n ++ " results for query: \"" ++ q ++ "\" in codebase '" ++ p ++ "'"

def searchErrorMsg (e : String) : String :=
  "Error searching code: " ++ e ++ " Please check if the codebase has been indexed first."

/-- `errorMessage.includes(COLLECTION_LIMIT_MESSAGE)` of `handlers.ts`
line 553. -/
def includesCollectionLimit (e : String) : Bool :=
  decide (COLLECTION_LIMIT_MESSAGE.toList <:+: e.toList)

/-- `handleSearchCode` body, `handlers.ts` lines 417-572 (inside the
`try`, together with the catch that converts a thrown search into a
structured result, treating a collection-limit message as a final
non-error answer).  Search hits are abstracted to their formatted text
lines; their exact formatting is outside this subsystem's claims. -/
def handleSearchCodeBody (a : SearchArgs) (env : Env) (st : MState) :
    HandlerResult × MState :=
  let st := syncFromCloud env.cloud st
  let absolutePath := ensureAbsolutePath a.path
  if ¬ env.pathExists then
    (mkError (pathNotExistMsg absolutePath a.path), st)
  else if ¬ env.isDirectory then
    (mkError (notDirectoryMsg absolutePath), st)
  else
    let isIndexed := absolutePath ∈ getIndexedCodebases st.mem
    let isIndexing := absolutePath ∈ getIndexingCodebases st.mem
    if ¬ isIndexed ∧ ¬ isIndexing then
      (mkError (notIndexedSearchMsg absolutePath), st)
    else
      let cleaned := ((a.extensionFilter.getD []).map (fun e => e.trim)).filter
        (fun e => e.length > 0)
      let invalid := cleaned.filter (fun e => ¬ validExtension e)
      if ¬ a.extensionFilter.getD [] = [] ∧ ¬ invalid = [] then
        (mkError invalidExtensionsMsg, st)
      else
        match env.semanticSearch with
        | .error e =>
          if e = COLLECTION_LIMIT_MESSAGE || includesCollectionLimit e then
            (mkOk COLLECTION_LIMIT_MESSAGE, st)
          else
            (mkError (searchErrorMsg e), st)
        | .ok hits =>
          if hits.isEmpty then (mkOk (noResultsMsg a.query absolutePath), st)
          else (mkOk (foundResultsMsg a.query absolutePath hits.length), st)

/-- `handleSearchCode` as invoked by a caller: the destructuring at
`handlers.ts` line 418 runs before the `try`, so `null`/`undefined` args
throw out of the handler. -/
def handleSearchCodeOp (args : Option SearchArgs) (env : Env) (st : MState) :
    Except String (HandlerResult × MState) :=
  match args with
  | none => .error "TypeError: cannot destructure property of null or undefined"
  | some a => .ok (handleSearchCodeBody a env st)

/-- Arguments of `handleClearIndex` / `handleGetIndexingStatus`. -/
structure PathArgs where
  path : String

def noCodebasesMsg : String :=
  "No codebases are currently indexed or being indexed."

def notIndexedClearMsg (p : String) : String :=
  "Error: Codebase '" ++ p ++ "' is not indexed or being indexed."

def failedClearMsg (p e : String) : String :=
  "Failed to clear " ++ p ++ ": " ++ e

def clearedMsg (p : String) : String :=
  "Successfully cleared codebase '" ++ p ++ "'"

/-- `handleClearIndex` body, `handlers.ts` lines 574-692.  The
no-codebases early return (lines 577-584) runs before the `try` but
involves only snapshot reads, which cannot throw.  Inside the `try`, a
thrown `context.clearIndex` is answered by the inner catch (lines
632-642) with a structured `Failed to clear` result; on success the
record is removed entirely and the snapshot saved. -/
def handleClearIndexBody (a : PathArgs) (env : Env) (st : MState) :
    HandlerResult × MState :=
  if (getIndexedCodebases st.mem).isEmpty && (getIndexingCodebases st.mem).isEmpty then
    (mkOk noCodebasesMsg, st)
  else
    let absolutePath := ensureAbsolutePath a.path
    if ¬ env.pathExists then
      (mkError (pathNotExistMsg absolutePath a.path), st)
    else if ¬ env.isDirectory then
      (mkError (notDirectoryMsg absolutePath), st)
    else
      let isIndexed := absolutePath ∈ getIndexedCodebases st.mem
      let isIndexing := absolutePath ∈ getIndexingCodebases st.mem
      if ¬ isIndexed ∧ ¬ isIndexing then
        (mkError (notIndexedClearMsg absolutePath), st)
      else
        match env.clearIndexResult with
        | .error e => (mkError (failedClearMsg absolutePath e), st)
        | .ok _ =>
          let mem := eraseRecord absolutePath st.mem
          (mkOk (clearedMsg absolutePath), ⟨mem, mem⟩)

/-- `handleClearIndex` as invoked by a caller: the destructuring at
`handlers.ts` line 575 runs before the `try`. -/
def handleClearIndexOp (args : Option PathArgs) (env : Env) (st : MState) :
    Except String (HandlerResult × MState) :=
  match args with
  | none => .error "TypeError: cannot destructure property of null or undefined"
  | some a => .ok (handleClearIndexBody a env st)

def statusIndexedMsg (p : String) : String :=
  "Codebase '" ++ p ++ "' is fully indexed and ready for search."

def statusIndexingMsg (p : String) (pct : Nat) : String :=
  "Codebase '" ++ p ++ "' is currently being indexed. Progress: " ++ toString pct ++ "%"

def statusFailedMsg (p e : String) : String :=
  "Codebase '" ++ p ++ "' indexing failed. Error: " ++ e

def statusNotFoundMsg (p : String) : String :=
  "Codebase '" ++ p ++ "' is not indexed. Please use the index_codebase tool to index it first."

/-- `handleGetIndexingStatus` body, `handlers.ts` lines 694-801: a pure
read of the record, switching on its status.  The detailed
statistics/timestamp decorations are abbreviated to the leading status
sentence plus the datum each branch reads from the record. -/
def handleGetIndexingStatusBody (a : PathArgs) (env : Env) (st : MState) :
    HandlerResult × MState :=
  let absolutePath := ensureAbsolutePath a.path
  if ¬ env.pathExists then
    (mkError (pathNotExistMsg absolutePath a.path), st)
  else if ¬ env.isDirectory then
    (mkError (notDirectoryMsg absolutePath), st)
  else
    match getCodebaseStatus absolutePath st.mem with
    | .indexed => (mkOk (statusIndexedMsg absolutePath), st)
    | .indexing =>
      (mkOk (statusIndexingMsg absolutePath (getIndexingProgress absolutePath st.mem)), st)
    | .indexfailed =>
      let e := (((lookupRecord absolutePath st.mem).bind
        (fun r => r.errorMessage)).getD "")
      (mkOk (statusFailedMsg absolutePath e), st)
    | .not_found => (mkOk (statusNotFoundMsg absolutePath), st)

/-- `handleGetIndexingStatus` as invoked by a caller: the destructuring
at `handlers.ts` line 695 runs before the `try`. -/
def handleGetIndexingStatusOp (args : Option PathArgs) (env : Env) (st : MState) :
    Except String (HandlerResult × MState) :=
  match args with
  | none => .error "TypeError: cannot destructure property of null or undefined"
  | some a => .ok (handleGetIndexingStatusBody a env st)

/-! ### Snapshot lemmas -/

theorem lookupRecord_eraseRecord (p q : String) (s : Snapshot) :
    lookupRecord p (eraseRecord q s) = if p = q then none else lookupRecord p s := by
  induction s with
  | nil => simp [lookupRecord, eraseRecord]
  | cons e t ih =>
    by_cases heq : e.1 = q
    · by_cases hpe : e.1 = p
      · have hpq : p = q := hpe.symm.trans heq
        simp [lookupRecord, eraseRecord, heq, hpq] at ih ⊢
        exact ih
      · have hqp : ¬ q = p := fun h => hpe (heq.trans h)
        simp [lookupRecord, eraseRecord, heq, hpe, hqp, ih]
    · simp only [eraseRecord, heq, if_neg heq, lookupRecord]
      by_cases hpe : e.1 = p
      · have hpq : ¬ p = q := fun h => heq (hpe.trans h)
        simp [hpe, hpq]
      · simp [hpe, ih]

theorem lookupRecord_setRecord (p q : String) (r : IndexRecord) (s : Snapshot) :
    lookupRecord p (setRecord q r s) = if p = q then some r else lookupRecord p s := by
  unfold setRecord
  by_cases hpq : p = q
  · simp [lookupRecord, hpq]
  · have hqp : ¬ q = p := fun h => hpq h.symm
    simp [lookupRecord, hqp, hpq, lookupRecord_eraseRecord]

theorem getCodebaseStatus_setRecord (p q : String) (r : IndexRecord) (s : Snapshot) :
    getCodebaseStatus p (setRecord q r s)
      = if p = q then r.status else getCodebaseStatus p s := by
  unfold getCodebaseStatus
  rw [lookupRecord_setRecord]
  by_cases hpq : p = q <;> simp [hpq]

theorem getCodebaseStatus_eraseRecord (p q : String) (s : Snapshot) :
    getCodebaseStatus p (eraseRecord q s)
      = if p = q then .not_found else getCodebaseStatus p s := by
  unfold getCodebaseStatus
  rw [lookupRecord_eraseRecord]
  by_cases hpq : p = q <;> simp [hpq]

theorem getCodebaseStatus_foldl_erase (l : List String) (s : Snapshot) (p : String) :
    getCodebaseStatus p (l.foldl (fun m q => eraseRecord q m) s)
      = if p ∈ l then .not_found else getCodebaseStatus p s := by
  induction l generalizing s with
  | nil => simp
  | cons a t ih =>
    simp only [List.foldl_cons]
    rw [ih]
    by_cases hp : p ∈ t
    · simp [hp]
    · by_cases hpa : p = a <;>
        simp [hp, hpa, getCodebaseStatus_eraseRecord, List.mem_cons]

theorem mem_snapshotPaths_of_status (p : String) (s : Snapshot)
    (h : ¬ getCodebaseStatus p s = .not_found) : p ∈ snapshotPaths s := by
  induction s with
  | nil => simp [getCodebaseStatus, lookupRecord] at h
  | cons e t ih =>
    by_cases hpe : e.1 = p
    · exact List.mem_map.mpr ⟨e, List.mem_cons_self e t, hpe⟩
    · have h2 : ¬ getCodebaseStatus p t = .not_found := by
        simpa [getCodebaseStatus, lookupRecord, hpe] using h
      have := ih h2
      simp only [snapshotPaths, List.map_cons, List.mem_cons]
      exact Or.inr (by simpa [snapshotPaths] using this)

theorem mem_getIndexedCodebases (p : String) (s : Snapshot) :
    p ∈ getIndexedCodebases s ↔ getCodebaseStatus p s = .indexed := by
  unfold getIndexedCodebases
  constructor
  · intro h
    have := (List.mem_filter.mp h).2
    exact of_decide_eq_true this
  · intro h
    refine List.mem_filter.mpr ⟨?_, by simp [h]⟩
    exact mem_snapshotPaths_of_status p s (by simp [h])

theorem mem_getIndexingCodebases (p : String) (s : Snapshot) :
    p ∈ getIndexingCodebases s ↔ getCodebaseStatus p s = .indexing := by
  unfold getIndexingCodebases
  constructor
  · intro h
    have := (List.mem_filter.mp h).2
    exact of_decide_eq_true this
  · intro h
    refine List.mem_filter.mpr ⟨?_, by simp [h]⟩
    exact mem_snapshotPaths_of_status p s (by simp [h])

/-! ### Cloud-sync lemmas -/

theorem eraseRecord_sublist (q : String) (s : Snapshot) : (eraseRecord q s).Sublist s := by
  induction s with
  | nil => simp [eraseRecord]
  | cons e t ih =>
    by_cases heq : e.1 = q
    · simp only [eraseRecord, if_pos heq]
      exact ih.cons e
    · simp only [eraseRecord, if_neg heq]
      exact ih.cons₂ e

theorem foldl_erase_sublist (l : List String) (s : Snapshot) :
    (l.foldl (fun m q => eraseRecord q m) s).Sublist s := by
  induction l generalizing s with
  | nil => simp
  | cons a t ih =>
    simp only [List.foldl_cons]
    exact (ih (eraseRecord a s)).trans (eraseRecord_sublist a s)

/-- Every run of the cloud sync either leaves the in-memory snapshot
untouched or erases some subset of the locally `indexed` paths from it -
nothing else. -/
theorem syncFromCloud_mem_cases (c : CloudEnv) (st : MState) :
    (syncFromCloud c st).mem = st.mem ∨
      ∃ l : List String, (∀ q ∈ l, q ∈ getIndexedCodebases st.mem) ∧
        (syncFromCloud c st).mem = l.foldl (fun m q => eraseRecord q m) st.mem := by
  unfold syncFromCloud
  split
  · left; rfl
  · dsimp only
    split
    · split
      · left; rfl
      · right
        exact ⟨getIndexedCodebases st.mem, fun q hq => hq, rfl⟩
    · split
      · left; rfl
      · right
        refine ⟨_, ?_, rfl⟩
        intro q hq
        exact List.mem_of_mem_filter hq

theorem syncFromCloud_mem_sublist (c : CloudEnv) (st : MState) :
    ((syncFromCloud c st).mem).Sublist st.mem := by
  rcases syncFromCloud_mem_cases c st with h | ⟨l, _, h⟩ <;> rw [h]
  exact foldl_erase_sublist l st.mem

theorem getCodebaseStatus_syncFromCloud (c : CloudEnv) (st : MState) (p : String) :
    getCodebaseStatus p (syncFromCloud c st).mem = getCodebaseStatus p st.mem ∨
      getCodebaseStatus p (syncFromCloud c st).mem = .not_found := by
  rcases syncFromCloud_mem_cases c st with h | ⟨l, _, h⟩ <;> rw [h]
  · left; rfl
  · rw [getCodebaseStatus_foldl_erase]
    by_cases hp : p ∈ l <;> simp [hp]

theorem syncFromCloud_preserves_indexing (c : CloudEnv) (st : MState) (p : String)
    (h : getCodebaseStatus p st.mem = .indexing) :
    getCodebaseStatus p (syncFromCloud c st).mem = .indexing := by
  have hnotIndexed : ¬ p ∈ getIndexedCodebases st.mem := by
    rw [mem_getIndexedCodebases, h]; simp
  rcases syncFromCloud_mem_cases c st with hm | ⟨l, hl, hm⟩ <;> rw [hm]
  · exact h
  · have hp : ¬ p ∈ l := fun hp => hnotIndexed (hl p hp)
    rw [getCodebaseStatus_foldl_erase, if_neg hp]
    exact h

theorem getIndexedCodebases_after_erase_all (s : Snapshot) :
    getIndexedCodebases ((getIndexedCodebases s).foldl (fun m q => eraseRecord q m) s) = [] := by
  rw [List.eq_nil_iff_forall_not_mem]
  intro p hp
  rw [mem_getIndexedCodebases, getCodebaseStatus_foldl_erase] at hp
  by_cases hmem : p ∈ getIndexedCodebases s
  · rw [if_pos hmem] at hp
    simp at hp
  · rw [if_neg hmem] at hp
    exact hmem ((mem_getIndexedCodebases p s).mpr hp)

theorem sync_main_second_filter (s : Snapshot) (cs : List String) :
    (getIndexedCodebases (((getIndexedCodebases s).filter (fun q => ¬ q ∈ cs)).foldl
        (fun m q => eraseRecord q m) s)).filter (fun q => ¬ q ∈ cs) = [] := by
  apply List.filter_eq_nil_iff.mpr
  intro a ha
  rw [mem_getIndexedCodebases, getCodebaseStatus_foldl_erase] at ha
  by_cases hmem : a ∈ (getIndexedCodebases s).filter (fun q => ¬ q ∈ cs)
  · rw [if_pos hmem] at ha
    simp at ha
  · rw [if_neg hmem] at ha
    have hidx : a ∈ getIndexedCodebases s := (mem_getIndexedCodebases a s).mpr ha
    simp only [List.mem_filter, hidx, true_and] at hmem
    simp at hmem ⊢
    exact hmem

theorem syncFromCloud_no_change_empty (c : CloudEnv) (st : MState) (cols : List String)
    (hc : c.listCollections = .ok cols) (hemp : cols.isEmpty = true)
    (hidx : getIndexedCodebases st.mem = []) : syncFromCloud c st = st := by
  unfold syncFromCloud
  rw [hc]
  dsimp only
  rw [if_pos hemp, hidx]
  simp

theorem syncFromCloud_no_change_main (c : CloudEnv) (st : MState) (cols : List String)
    (hc : c.listCollections = .ok cols) (hemp : ¬ cols.isEmpty = true)
    (hrem : (getIndexedCodebases st.mem).filter
      (fun q => ¬ q ∈ computeCloudCodebases c cols) = []) : syncFromCloud c st = st := by
  unfold syncFromCloud
  rw [hc]
  dsimp only
  rw [if_neg hemp, hrem]
  simp

/-- Running the cloud sync twice against the same cloud state performs no
further mutation on the second run. -/
theorem syncFromCloud_idem (c : CloudEnv) (st : MState) :
    syncFromCloud c (syncFromCloud c st) = syncFromCloud c st := by
  rcases hc : c.listCollections with e | cols
  · have h1 : syncFromCloud c st = st := by
      unfold syncFromCloud
      rw [hc]
    rw [h1, h1]
  · by_cases hemp : cols.isEmpty
    · by_cases hloc : (getIndexedCodebases st.mem).isEmpty
      · have h1 : syncFromCloud c st = st := by
          unfold syncFromCloud
          rw [hc]
          dsimp only
          rw [if_pos hemp, if_pos hloc]
        rw [h1, h1]
      · have h1 : syncFromCloud c st =
            ⟨(getIndexedCodebases st.mem).foldl (fun m q => eraseRecord q m) st.mem,
             (getIndexedCodebases st.mem).foldl (fun m q => eraseRecord q m) st.mem⟩ := by
          unfold syncFromCloud
          rw [hc]
          dsimp only
          rw [if_pos hemp, if_neg hloc]
        rw [h1]
        exact syncFromCloud_no_change_empty c _ cols hc hemp
          (getIndexedCodebases_after_erase_all st.mem)
    · by_cases htr : ((getIndexedCodebases st.mem).filter
        (fun q => ¬ q ∈ computeCloudCodebases c cols)).isEmpty
      · have h1 : syncFromCloud c st = st := by
          unfold syncFromCloud
          rw [hc]
          dsimp only
          rw [if_neg hemp, if_pos htr]
        rw [h1, h1]
      · have h1 : syncFromCloud c st =
            ⟨((getIndexedCodebases st.mem).filter
                (fun q => ¬ q ∈ computeCloudCodebases c cols)).foldl
                (fun m q => eraseRecord q m) st.mem,
             ((getIndexedCodebases st.mem).filter
                (fun q => ¬ q ∈ computeCloudCodebases c cols)).foldl
                (fun m q => eraseRecord q m) st.mem⟩ := by
          unfold syncFromCloud
          rw [hc]
          dsimp only
          rw [if_neg hemp, if_neg htr]
        rw [h1]
        exact syncFromCloud_no_change_main c _ cols hc hemp
          (sync_main_second_filter st.mem (computeCloudCodebases c cols))

theorem syncFromCloud_status_ne (c : CloudEnv) (st : MState) (p : String) {x : CStatus}
    (hx : ¬ x = .not_found) (h : ¬ getCodebaseStatus p st.mem = x) :
    ¬ getCodebaseStatus p (syncFromCloud c st).mem = x := by
  rcases getCodebaseStatus_syncFromCloud c st p with h1 | h1 <;> rw [h1]
  · exact h
  · intro h2; exact hx h2.symm

/-! ### Background-task lemmas -/

theorem applyProgress_mem (p : String) (l : List (Nat × Bool)) (st : MState) :
    (applyProgress p l st).mem
      = l.foldl (fun m pr => setCodebaseIndexing p pr.1 m) st.mem := by
  induction l generalizing st with
  | nil => rfl
  | cons x t ih =>
    simp only [applyProgress, List.foldl_cons] at ih ⊢
    by_cases hx : x.2
    · rw [if_pos hx]
      exact ih (saveSnapshot ⟨setCodebaseIndexing p x.1 st.mem, st.disk⟩)
    · rw [if_neg hx]
      exact ih ⟨setCodebaseIndexing p x.1 st.mem, st.disk⟩

theorem getIndexingProgress_setCodebaseIndexing (p : String) (pct : Nat) (s : Snapshot) :
    getIndexingProgress p (setCodebaseIndexing p pct s) = pct := by
  simp [getIndexingProgress, setCodebaseIndexing, lookupRecord_setRecord]

theorem getIndexingProgress_foldl_set (p : String) (l : List (Nat × Bool)) (s : Snapshot)
    (pct : Nat) (h : (l.map Prod.fst).getLast? = some pct) :
    getIndexingProgress p (l.foldl (fun m pr => setCodebaseIndexing p pr.1 m) s) = pct := by
  induction l generalizing s with
  | nil => simp at h
  | cons x t ih =>
    cases t with
    | nil =>
      simp only [List.map_cons, List.map_nil, List.getLast?_singleton, Option.some.injEq] at h
      subst h
      simp [getIndexingProgress_setCodebaseIndexing]
    | cons y u =>
      have h2 : (((y :: u).map Prod.fst)).getLast? = some pct := by
        simpa using h
      simp only [List.foldl_cons]
      exact ih (setCodebaseIndexing p x.1 s) h2

theorem setFailedEv_not_mem_progressTrace (p q m : String) (k : Nat)
    (l : List (Nat × Bool)) : ¬ Ev.setFailedEv q m k ∈ progressTrace p l := by
  intro h
  rcases List.mem_flatMap.mp h with ⟨pr, _, hpr⟩
  rcases List.mem_cons.mp hpr with h1 | h1
  · simp at h1
  · by_cases hx : pr.2 <;> simp [hx] at h1

theorem indexCallEv_mem_progressTrace_elim (p q s : String) (l : List (Nat × Bool)) :
    ¬ Ev.indexCallEv q s ∈ progressTrace p l := by
  intro h
  rcases List.mem_flatMap.mp h with ⟨pr, _, hpr⟩
  rcases List.mem_cons.mp hpr with h1 | h1
  · simp at h1
  · by_cases hx : pr.2 <;> simp [hx] at h1

/-! ### Concrete fixtures used by witnesses and counterexamples -/

/-- A sample `indexed` record. -/
def recIndexed : IndexRecord :=
  { status := .indexed, indexedFiles := some 42, totalChunks := some 310 }

/-- A sample `indexing` record at 37%. -/
def recIndexing : IndexRecord :=
  { status := .indexing, indexingPercentage := some 37 }

def pathRepo : String := "/repo"

def collRepo : String := "code_chunks_x"

/-- A state with `/repo` indexed, in memory and on disk. -/
def stIndexed : MState := ⟨[(pathRepo, recIndexed)], [(pathRepo, recIndexed)]⟩

/-- A state with `/repo` indexing, in memory and on disk. -/
def stIndexing : MState := ⟨[(pathRepo, recIndexing)], [(pathRepo, recIndexing)]⟩

/-- The empty state. -/
def stEmpty : MState := ⟨[], []⟩

/-- A cloud whose single code collection answers its one-row metadata
query with an exception. -/
def cloudQueryError : CloudEnv := ⟨.ok [collRepo], fun _ => .queryError⟩

/-- A cloud whose collection listing itself throws. -/
def cloudListError : CloudEnv := ⟨.error ("network unreachable"), fun _ => .empty⟩

/-- A benign cloud: one code collection carrying `/repo`. -/
def cloudRepo : CloudEnv := ⟨.ok [collRepo], fun _ => .path pathRepo⟩

/-- A benign handler environment: the path exists and is a directory, no
remote index, every external call succeeds, the background run completes
with 42 files / 310 chunks. -/
def envPlain : Env :=
  { pathExists := true, isDirectory := true, hasIndex := false,
    clearIndexResult := .ok (), checkCollectionLimit := .ok true,
    semanticSearch := .ok [], cloud := cloudRepo,
    bg := ⟨none, [(100, true)], .ok ⟨42, 310, .completed⟩⟩ }

/-! ### Claim C6 -/

/-- Claim C6, counterexample.  The claim states that *every* error during
cloud reconciliation (including a failed per-collection query) degrades
reconciliation to a no-op on the local snapshot.  Here the single code
collection's metadata query throws (`cloudQueryError.outcome` is
`queryError`); the error is caught per-collection, the loop continues,
the collection contributes nothing to the discovered cloud set, and
reconciliation then removes the local record for `/repo` and persists the
shrunken snapshot - not a no-op. -/
theorem c6_counterexample :
    cloudQueryError.listCollections = .ok [collRepo]
    ∧ cloudQueryError.outcome collRepo = .queryError
    ∧ getCodebaseStatus pathRepo stIndexed.mem = .indexed
    ∧ getCodebaseStatus pathRepo (syncFromCloud cloudQueryError stIndexed).mem = .not_found
    ∧ ¬ (syncFromCloud cloudQueryError stIndexed).disk = stIndexed.disk := by
  refine ⟨rfl, rfl, rfl, ?_, ?_⟩ <;> decide

/-- Claim C6, amended: an error is never surfaced to the caller of the
enclosing operation (`syncFromCloud` is total and its callers never
inspect an error from it), and a *top-level* failure - the
`listCollections` call throwing - makes reconciliation a no-op on both
the in-memory and the persisted snapshot; a *per-collection* failure,
however, only skips that collection's contribution and reconciliation
may then remove local paths whose backing collection failed to answer. -/
theorem c6_toplevel_error_noop (c : CloudEnv) (st : MState) (e : String)
    (h : c.listCollections = .error e) : syncFromCloud c st = st := by
  unfold syncFromCloud
  rw [h]

/-- Claim C6, witness for the amended theorem: a listing failure leaves a
concrete state untouched. -/
theorem c6_toplevel_error_noop_witness :
    cloudListError.listCollections = .error ("network unreachable")
    ∧ syncFromCloud cloudListError stIndexed = stIndexed :=
  ⟨rfl, c6_toplevel_error_noop cloudListError stIndexed ("network unreachable") rfl⟩

/-! ### Claim C7 -/

/-- Claim C7: cloud reconciliation never inserts a path into the local
snapshot - the recorded paths after a run are a subset of those before -
and running it twice against an unchanged cloud produces no further
mutation on the second run. -/
theorem c7_reconcile_shrinks_and_idem (c : CloudEnv) (st : MState) :
    (∀ p : String, p ∈ snapshotPaths (syncFromCloud c st).mem → p ∈ snapshotPaths st.mem)
    ∧ syncFromCloud c (syncFromCloud c st) = syncFromCloud c st := by
  constructor
  · intro p hp
    have hsub := syncFromCloud_mem_sublist c st
    unfold snapshotPaths at hp ⊢
    exact (hsub.map (fun e => e.1)).subset hp
  · exact syncFromCloud_idem c st

/-- Claim C7, witness: on a concrete state whose path survives a benign
reconcile, the subset property and idempotence are realised; the
membership hypothesis of the subset direction is discharged by
evaluation. -/
theorem c7_reconcile_shrinks_and_idem_witness :
    pathRepo ∈ snapshotPaths (syncFromCloud cloudRepo stIndexed).mem
    ∧ pathRepo ∈ snapshotPaths stIndexed.mem
    ∧ syncFromCloud cloudRepo (syncFromCloud cloudRepo stIndexed)
        = syncFromCloud cloudRepo stIndexed :=
  ⟨by decide,
   (c7_reconcile_shrinks_and_idem cloudRepo stIndexed).1 pathRepo (by decide),
   (c7_reconcile_shrinks_and_idem cloudRepo stIndexed).2⟩

/-! ### Claim C4 -/

/-- A failing background run used by the C4 witness: two progress
callbacks (the last at 37%), then `indexCodebase` throws. -/
def bgFail : BgEnv := ⟨none, [(10, true), (37, false)], .error ("embedding API timeout")⟩

/-- Claim C4: when the background indexing task's `indexCodebase` call
throws, the record transitions to `indexfailed` carrying the exception's
message and the last observed progress percentage, and the snapshot is
persisted.  The exception never propagates out of the task: every error
path of `startBackgroundIndexing` is caught and the function returns
normally for every environment (it is total by construction - its type
has no error case). -/
theorem c4_background_failure (p sp : String) (bg : BgEnv) (st : MState)
    (msg : String) (pct : Nat)
    (hprep : bg.prepError = none)
    (hres : bg.result = .error msg)
    (hlast : (bg.progress.map Prod.fst).getLast? = some pct) :
    lookupRecord p (startBackgroundIndexing p sp bg st).1.mem
      = some { status := .indexfailed, errorMessage := some msg,
               lastAttemptedPercentage := some pct }
    ∧ (startBackgroundIndexing p sp bg st).1.disk
        = (startBackgroundIndexing p sp bg st).1.mem
    ∧ Ev.setFailedEv p msg pct ∈ (startBackgroundIndexing p sp bg st).2.1 := by
  have hpct : getIndexingProgress p (applyProgress p bg.progress st).mem = pct := by
    rw [applyProgress_mem]
    exact getIndexingProgress_foldl_set p bg.progress st.mem pct hlast
  unfold startBackgroundIndexing
  simp only [hprep, hres, hpct]
  refine ⟨?_, trivial, ?_⟩
  · simp [setCodebaseIndexFailed, lookupRecord_setRecord]
  · simp

/-- Claim C4, witness: the concrete failing run of `bgFail` on a state
already indexing `/repo`, with the hypotheses evaluated. -/
theorem c4_background_failure_witness :
    bgFail.prepError = none
    ∧ bgFail.result = .error ("embedding API timeout")
    ∧ (bgFail.progress.map Prod.fst).getLast? = some 37
    ∧ lookupRecord pathRepo (startBackgroundIndexing pathRepo splitterAst bgFail stIndexing).1.mem
        = some { status := .indexfailed, errorMessage := some ("embedding API timeout"),
                 lastAttemptedPercentage := some 37 } :=
  ⟨rfl, rfl, by decide,
   (c4_background_failure pathRepo splitterAst bgFail stIndexing ("embedding API timeout") 37
     rfl rfl (by decide)).1⟩

/-! ### Claim C8 -/

/-- A background run hitting the chunk cap, used by the C8 witness. -/
def bgLimit : BgEnv := ⟨none, [(50, true)], .ok ⟨42, 310, .limit_reached⟩⟩

/-- The same background run resolving `completed` instead of
`limit_reached`, with identical statistics. -/
def bgCompleted : BgEnv := ⟨none, [(50, true)], .ok ⟨42, 310, .completed⟩⟩

/-- `envPlain` whose background task hits the chunk cap. -/
def envLimitReached : Env := { envPlain with bg := bgLimit }

/-- `envPlain` whose background task completes normally with the same
statistics. -/
def envCompleted : Env := { envPlain with bg := bgCompleted }

/-- The index request used in the C8 counterexample. -/
def argsRepo : IndexArgs := ⟨pathRepo, none, none, [], []⟩

/-- Claim C8, counterexample.  The claim states that on a
`limit_reached` result a chunk-limit warning is *surfaced to the
caller*.  It is not: the handler's acknowledgment - the only value a
caller of the indexing request receives - was produced before the
detached task resolved, and here it is the plain "started" message and
is *identical* to the acknowledgment of the same run whose task resolves
`completed` with the same statistics; a subsequent status query is
likewise identical in the two runs.  Nothing a caller can observe
distinguishes the limit-reached run, so no warning reaches any caller -
the warning exists only in the detached task's completion log message
(`handlers.ts` lines 394-399, a `console.log`). -/
theorem c8_counterexample :
    envLimitReached.bg.result = .ok ⟨42, 310, .limit_reached⟩
    ∧ envCompleted.bg.result = .ok ⟨42, 310, .completed⟩
    ∧ (handleIndexCodebaseBody argsRepo envLimitReached stEmpty).1
        = mkOk (startedMsg pathRepo splitterAst)
    ∧ (handleIndexCodebaseBody argsRepo envLimitReached stEmpty).1
        = (handleIndexCodebaseBody argsRepo envCompleted stEmpty).1
    ∧ (handleGetIndexingStatusBody ⟨pathRepo⟩ envLimitReached
          (handleIndexCodebaseBody argsRepo envLimitReached stEmpty).2.1).1
        = (handleGetIndexingStatusBody ⟨pathRepo⟩ envCompleted
          (handleIndexCodebaseBody argsRepo envCompleted stEmpty).2.1).1 :=
  ⟨rfl, rfl, rfl, rfl, rfl⟩

/-- Claim C8, amended: when `indexCodebase` resolves with
`status = limit_reached`, the background task still performs the success
transition - the record becomes `indexed` with the returned
`indexedFiles` and `totalChunks`, the snapshot is persisted, and no
`indexfailed` transition happens - and the chunk-limit warning is
appended to the detached task's completion log message only; it is not
delivered to any caller. -/
theorem c8_limit_reached_success (p sp : String) (bg : BgEnv) (st : MState)
    (stats : IndexStats)
    (hprep : bg.prepError = none)
    (hres : bg.result = .ok stats)
    (hlim : stats.status = .limit_reached) :
    lookupRecord p (startBackgroundIndexing p sp bg st).1.mem
      = some { status := .indexed, indexedFiles := some stats.indexedFiles,
               totalChunks := some stats.totalChunks }
    ∧ (startBackgroundIndexing p sp bg st).1.disk
        = (startBackgroundIndexing p sp bg st).1.mem
    ∧ (∀ m k, ¬ Ev.setFailedEv p m k ∈ (startBackgroundIndexing p sp bg st).2.1)
    ∧ (startBackgroundIndexing p sp bg st).2.2
        = completionBaseMsg p sp stats ++ chunkLimitWarning := by
  unfold startBackgroundIndexing
  simp only [hprep, hres]
  refine ⟨?_, trivial, ?_, ?_⟩
  · simp [setCodebaseIndexed, lookupRecord_setRecord]
  · intro m k hmem
    simp only [List.mem_append, List.mem_cons] at hmem
    rcases hmem with ((h1 | h1) | h1) | h1 | h1
    · by_cases hsp : sp = splitterAst <;> simp [hsp] at h1
    · simp at h1
    · exact setFailedEv_not_mem_progressTrace p p m k bg.progress h1
    · simp at h1
    · simp at h1
  · simp [completionMsg, hlim]

/-- Claim C8, witness for the amended theorem: a concrete
`limit_reached` run, with the hypotheses evaluated. -/
theorem c8_limit_reached_success_witness :
    bgLimit.prepError = none
    ∧ bgLimit.result = .ok ⟨42, 310, .limit_reached⟩
    ∧ lookupRecord pathRepo (startBackgroundIndexing pathRepo splitterAst bgLimit stIndexing).1.mem
        = some { status := .indexed, indexedFiles := some 42, totalChunks := some 310 } :=
  ⟨rfl, rfl,
   (c8_limit_reached_success pathRepo splitterAst bgLimit stIndexing ⟨42, 310, .limit_reached⟩
     rfl rfl rfl).1⟩

/-- A failed capacity preflight short-circuits the pipeline tail:
`COLLECTION_LIMIT_MESSAGE` is returned as an error and neither the state
nor the trace accumulated so far changes. -/
theorem afterPreflight_capacity_false (p sp : String) (env : Env) (st : MState)
    (tr : List Ev) (hcap : env.checkCollectionLimit = .ok false) :
    afterPreflight p sp env st tr = (mkError COLLECTION_LIMIT_MESSAGE, st, tr) := by
  unfold afterPreflight
  rw [hcap]

/-! ### Claim C1 -/

/-- Claim C1: when a request passes the already-indexing and
already-indexed checks but the `checkCollectionLimit()` preflight reports
no remaining capacity, the handler returns the terminal
`COLLECTION_LIMIT_MESSAGE` error, the path's record is never transitioned
to `indexing` (no such event is in the trace and the final in-memory
status is not `indexing`), and `VectorIndexService.indexCodebase` is
never invoked for the path. -/
theorem c1_capacity_exceeded_terminal (a : IndexArgs) (env : Env) (st : MState)
    (hsp : a.splitter.getD splitterAst = splitterAst
      ∨ a.splitter.getD splitterAst = splitterLangchain)
    (hex : env.pathExists = true)
    (hdir : env.isDirectory = true)
    (hnotIndexing : ¬ getCodebaseStatus a.path st.mem = .indexing)
    (hpass : a.force.getD false = true ∨ ¬ getCodebaseStatus a.path st.mem = .indexed)
    (hclear : env.clearIndexResult = .ok ())
    (hcap : env.checkCollectionLimit = .ok false) :
    (handleIndexCodebaseBody a env st).1 = mkError COLLECTION_LIMIT_MESSAGE
    ∧ (∀ pct, ¬ Ev.setIndexingEv a.path pct ∈ (handleIndexCodebaseBody a env st).2.2)
    ∧ (∀ s, ¬ Ev.indexCallEv a.path s ∈ (handleIndexCodebaseBody a env st).2.2)
    ∧ ¬ getCodebaseStatus a.path (handleIndexCodebaseBody a env st).2.1.mem = .indexing := by
  have h1 : ¬ (¬ a.splitter.getD splitterAst = splitterAst
      ∧ ¬ a.splitter.getD splitterAst = splitterLangchain) := by
    rcases hsp with h | h <;> simp [h]
  have hnI1 : ¬ getCodebaseStatus a.path (syncFromCloud env.cloud st).mem = .indexing :=
    syncFromCloud_status_ne env.cloud st a.path (by simp) hnotIndexing
  have hmem1 : ¬ a.path ∈ getIndexingCodebases (syncFromCloud env.cloud st).mem :=
    fun h => hnI1 ((mem_getIndexingCodebases _ _).mp h)
  have h5 : ¬ (¬ a.force.getD false = true
      ∧ a.path ∈ getIndexedCodebases (syncFromCloud env.cloud st).mem) := by
    rcases hpass with hf | hni
    · simp [hf]
    · have hx : ¬ getCodebaseStatus a.path (syncFromCloud env.cloud st).mem = .indexed :=
        syncFromCloud_status_ne env.cloud st a.path (by simp) hni
      intro hc
      exact hx ((mem_getIndexedCodebases _ _).mp hc.2)
  unfold handleIndexCodebaseBody handleIndexAfterSync
  rw [if_neg h1]
  dsimp only [ensureAbsolutePath]
  rw [if_neg (show ¬ ¬ env.pathExists = true by simp [hex]),
      if_neg (show ¬ ¬ env.isDirectory = true by simp [hdir]),
      if_neg hmem1, if_neg h5]
  by_cases hdo : (a.force.getD false = true
      ∧ a.path ∈ getIndexedCodebases (syncFromCloud env.cloud st).mem)
  · rw [if_pos hdo, if_pos hdo]
    by_cases hfh : (a.force.getD false = true ∧ env.hasIndex = true)
    · rw [if_pos hfh, hclear]
      rw [afterPreflight_capacity_false _ _ _ _ _ hcap]
      refine ⟨rfl, ?_, ?_, ?_⟩
      · intro pct; simp
      · intro s; simp
      · simp [getCodebaseStatus_eraseRecord]
    · rw [if_neg hfh]
      rw [afterPreflight_capacity_false _ _ _ _ _ hcap]
      refine ⟨rfl, ?_, ?_, ?_⟩
      · intro pct; simp
      · intro s; simp
      · simp [getCodebaseStatus_eraseRecord]
  · rw [if_neg hdo, if_neg hdo]
    by_cases hfh : (a.force.getD false = true ∧ env.hasIndex = true)
    · rw [if_pos hfh, hclear]
      rw [afterPreflight_capacity_false _ _ _ _ _ hcap]
      refine ⟨rfl, ?_, ?_, ?_⟩
      · intro pct; simp
      · intro s; simp
      · exact hnI1
    · rw [if_neg hfh]
      rw [afterPreflight_capacity_false _ _ _ _ _ hcap]
      refine ⟨rfl, ?_, ?_, ?_⟩
      · intro pct; simp
      · intro s; simp
      · exact hnI1

/-- An environment with exhausted capacity. -/
def envNoCapacity : Env :=
  { envPlain with checkCollectionLimit := .ok false }

/-- Claim C1, witness: a fresh request on the empty state against an
exhausted cloud account is answered with the capacity message and the
final state holds no `indexing` record. -/
theorem c1_capacity_exceeded_terminal_witness :
    envNoCapacity.checkCollectionLimit = .ok false
    ∧ (handleIndexCodebaseBody ⟨pathRepo, none, none, [], []⟩ envNoCapacity stEmpty).1
        = mkError COLLECTION_LIMIT_MESSAGE :=
  ⟨rfl,
   (c1_capacity_exceeded_terminal ⟨pathRepo, none, none, [], []⟩ envNoCapacity stEmpty
     (Or.inl rfl) rfl rfl (by decide) (Or.inr (by decide)) rfl rfl).1⟩

/-! ### Claim C2 -/

/-- Claim C2: a request to index a path whose record is in state
`indexing` is rejected with the "already being indexed, please wait"
result, and no second background task is started - the run performs no
observable action at all (empty trace), in particular it never invokes
`VectorIndexService.indexCodebase` for the path. -/
theorem c2_already_indexing_rejected (a : IndexArgs) (env : Env) (st : MState)
    (hsp : a.splitter.getD splitterAst = splitterAst
      ∨ a.splitter.getD splitterAst = splitterLangchain)
    (hex : env.pathExists = true)
    (hdir : env.isDirectory = true)
    (hidx : getCodebaseStatus a.path st.mem = .indexing) :
    (handleIndexCodebaseBody a env st).1 = mkError (alreadyIndexingMsg a.path)
    ∧ (handleIndexCodebaseBody a env st).2.2 = [] := by
  have hsync : getCodebaseStatus a.path (syncFromCloud env.cloud st).mem = .indexing :=
    syncFromCloud_preserves_indexing env.cloud st a.path hidx
  have hmem : a.path ∈ getIndexingCodebases (syncFromCloud env.cloud st).mem :=
    (mem_getIndexingCodebases a.path _).mpr hsync
  have h1 : ¬ (¬ a.splitter.getD splitterAst = splitterAst
      ∧ ¬ a.splitter.getD splitterAst = splitterLangchain) := by
    rcases hsp with h | h <;> simp [h]
  unfold handleIndexCodebaseBody handleIndexAfterSync
  rw [if_neg h1]
  dsimp only [ensureAbsolutePath]
  rw [if_neg (show ¬ ¬ env.pathExists = true by simp [hex])]
  rw [if_neg (show ¬ ¬ env.isDirectory = true by simp [hdir])]
  rw [if_pos hmem]
  exact ⟨rfl, rfl⟩

/-- Claim C2, witness: on a state indexing `/repo`, the repeated request
is rejected and the trace is empty. -/
theorem c2_already_indexing_rejected_witness :
    getCodebaseStatus pathRepo stIndexing.mem = .indexing
    ∧ (handleIndexCodebaseBody ⟨pathRepo, none, none, [], []⟩ envPlain stIndexing).1
        = mkError (alreadyIndexingMsg pathRepo) :=
  ⟨rfl,
   (c2_already_indexing_rejected ⟨pathRepo, none, none, [], []⟩ envPlain stIndexing
     (Or.inl rfl) rfl rfl rfl).1⟩

/-! ### Claim C3 -/

/-- Claim C3: a forced re-index of an `indexed` path with a remote index
calls `VectorIndexService.clearIndex` and that call completes strictly
before the record is set to `indexing` and persisted: in the run's event
trace the `clearIndexEv` occurs at a strictly earlier position than the
`setIndexingEv`. -/
theorem c3_clear_before_indexing (a : IndexArgs) (env : Env) (st : MState)
    (hforce : a.force.getD false = true)
    (hsp : a.splitter.getD splitterAst = splitterAst
      ∨ a.splitter.getD splitterAst = splitterLangchain)
    (hex : env.pathExists = true)
    (hdir : env.isDirectory = true)
    (hIndexed : getCodebaseStatus a.path st.mem = .indexed)
    (hhi : env.hasIndex = true)
    (hclear : env.clearIndexResult = .ok ())
    (hcap : env.checkCollectionLimit = .ok true) :
    ∃ i j : Nat, i < j
      ∧ ((handleIndexCodebaseBody a env st).2.2)[i]? = some (Ev.clearIndexEv a.path)
      ∧ ((handleIndexCodebaseBody a env st).2.2)[j]? = some (Ev.setIndexingEv a.path 0) := by
  have h1 : ¬ (¬ a.splitter.getD splitterAst = splitterAst
      ∧ ¬ a.splitter.getD splitterAst = splitterLangchain) := by
    rcases hsp with h | h <;> simp [h]
  have hnotIndexing : ¬ getCodebaseStatus a.path st.mem = .indexing := by
    rw [hIndexed]; simp
  have hnI1 : ¬ getCodebaseStatus a.path (syncFromCloud env.cloud st).mem = .indexing :=
    syncFromCloud_status_ne env.cloud st a.path (by simp) hnotIndexing
  have hmem1 : ¬ a.path ∈ getIndexingCodebases (syncFromCloud env.cloud st).mem :=
    fun h => hnI1 ((mem_getIndexingCodebases _ _).mp h)
  have h5 : ¬ (¬ a.force.getD false = true
      ∧ a.path ∈ getIndexedCodebases (syncFromCloud env.cloud st).mem) := by
    simp [hforce]
  unfold handleIndexCodebaseBody handleIndexAfterSync
  rw [if_neg h1]
  dsimp only [ensureAbsolutePath]
  rw [if_neg (show ¬ ¬ env.pathExists = true by simp [hex]),
      if_neg (show ¬ ¬ env.isDirectory = true by simp [hdir]),
      if_neg hmem1, if_neg h5]
  by_cases hdo : (a.force.getD false = true
      ∧ a.path ∈ getIndexedCodebases (syncFromCloud env.cloud st).mem)
  · rw [if_pos hdo, if_pos hdo, if_pos ⟨hforce, hhi⟩, hclear]
    unfold afterPreflight
    rw [hcap]
    exact ⟨1, 2, by norm_num, by simp, by simp⟩
  · rw [if_neg hdo, if_neg hdo, if_pos ⟨hforce, hhi⟩, hclear]
    unfold afterPreflight
    rw [hcap]
    exact ⟨0, 1, by norm_num, by simp, by simp⟩

/-- Claim C3, witness: the forced re-index of the indexed `/repo`
realises the ordering on a concrete run. -/
theorem c3_clear_before_indexing_witness :
    getCodebaseStatus pathRepo stIndexed.mem = .indexed
    ∧ ∃ i j : Nat, i < j
      ∧ ((handleIndexCodebaseBody ⟨pathRepo, some true, none, [], []⟩
          { envPlain with hasIndex := true } stIndexed).2.2)[i]?
          = some (Ev.clearIndexEv pathRepo)
      ∧ ((handleIndexCodebaseBody ⟨pathRepo, some true, none, [], []⟩
          { envPlain with hasIndex := true } stIndexed).2.2)[j]?
          = some (Ev.setIndexingEv pathRepo 0) :=
  ⟨rfl,
   c3_clear_before_indexing ⟨pathRepo, some true, none, [], []⟩
     { envPlain with hasIndex := true } stIndexed rfl (Or.inl rfl) rfl rfl (by decide)
     rfl rfl rfl⟩

/-! ### Claim C9 -/

/-- Claim C9: when a forced re-index of an `indexed` path with a remote
index reaches the capacity preflight and the preflight returns `false`,
the handler returns the capacity error - but by then the local record has
already been removed and `VectorIndexService.clearIndex` has already been
invoked: the path ends as `not_found` with its prior remote index
destroyed, instead of retaining the previous `indexed` state. -/
theorem c9_force_capacity_destroys_prior_state (a : IndexArgs) (env : Env) (st : MState)
    (hforce : a.force.getD false = true)
    (hsp : a.splitter.getD splitterAst = splitterAst
      ∨ a.splitter.getD splitterAst = splitterLangchain)
    (hex : env.pathExists = true)
    (hdir : env.isDirectory = true)
    (hIndexed : getCodebaseStatus a.path st.mem = .indexed)
    (hhi : env.hasIndex = true)
    (hclear : env.clearIndexResult = .ok ())
    (hcap : env.checkCollectionLimit = .ok false) :
    (handleIndexCodebaseBody a env st).1 = mkError COLLECTION_LIMIT_MESSAGE
    ∧ Ev.clearIndexEv a.path ∈ (handleIndexCodebaseBody a env st).2.2
    ∧ getCodebaseStatus a.path (handleIndexCodebaseBody a env st).2.1.mem = .not_found := by
  have h1 : ¬ (¬ a.splitter.getD splitterAst = splitterAst
      ∧ ¬ a.splitter.getD splitterAst = splitterLangchain) := by
    rcases hsp with h | h <;> simp [h]
  have hnotIndexing : ¬ getCodebaseStatus a.path st.mem = .indexing := by
    rw [hIndexed]; simp
  have hnI1 : ¬ getCodebaseStatus a.path (syncFromCloud env.cloud st).mem = .indexing :=
    syncFromCloud_status_ne env.cloud st a.path (by simp) hnotIndexing
  have hmem1 : ¬ a.path ∈ getIndexingCodebases (syncFromCloud env.cloud st).mem :=
    fun h => hnI1 ((mem_getIndexingCodebases _ _).mp h)
  have h5 : ¬ (¬ a.force.getD false = true
      ∧ a.path ∈ getIndexedCodebases (syncFromCloud env.cloud st).mem) := by
    simp [hforce]
  unfold handleIndexCodebaseBody handleIndexAfterSync
  rw [if_neg h1]
  dsimp only [ensureAbsolutePath]
  rw [if_neg (show ¬ ¬ env.pathExists = true by simp [hex]),
      if_neg (show ¬ ¬ env.isDirectory = true by simp [hdir]),
      if_neg hmem1, if_neg h5]
  by_cases hdo : (a.force.getD false = true
      ∧ a.path ∈ getIndexedCodebases (syncFromCloud env.cloud st).mem)
  · rw [if_pos hdo, if_pos hdo, if_pos ⟨hforce, hhi⟩, hclear,
        afterPreflight_capacity_false _ _ _ _ _ hcap]
    refine ⟨rfl, by simp, ?_⟩
    simp [getCodebaseStatus_eraseRecord]
  · rw [if_neg hdo, if_neg hdo, if_pos ⟨hforce, hhi⟩, hclear,
        afterPreflight_capacity_false _ _ _ _ _ hcap]
    refine ⟨rfl, by simp, ?_⟩
    have hnm : ¬ a.path ∈ getIndexedCodebases (syncFromCloud env.cloud st).mem := by
      intro hm
      exact hdo ⟨hforce, hm⟩
    rcases getCodebaseStatus_syncFromCloud env.cloud st a.path with h | h
    · exact absurd ((mem_getIndexedCodebases _ _).mpr (h.trans hIndexed)) hnm
    · exact h

/-- Claim C9, witness: concrete forced re-index of indexed `/repo`
against an exhausted account - capacity error, `clearIndex` invoked,
record gone. -/
theorem c9_force_capacity_destroys_prior_state_witness :
    getCodebaseStatus pathRepo stIndexed.mem = .indexed
    ∧ { envNoCapacity with hasIndex := true }.checkCollectionLimit = .ok false
    ∧ (handleIndexCodebaseBody ⟨pathRepo, some true, none, [], []⟩
        { envNoCapacity with hasIndex := true } stIndexed).1
        = mkError COLLECTION_LIMIT_MESSAGE
    ∧ getCodebaseStatus pathRepo (handleIndexCodebaseBody ⟨pathRepo, some true, none, [], []⟩
        { envNoCapacity with hasIndex := true } stIndexed).2.1.mem = .not_found :=
  ⟨rfl, rfl,
   (c9_force_capacity_destroys_prior_state ⟨pathRepo, some true, none, [], []⟩
     { envNoCapacity with hasIndex := true } stIndexed rfl (Or.inl rfl) rfl rfl (by decide)
     rfl rfl rfl).1,
   (c9_force_capacity_destroys_prior_state ⟨pathRepo, some true, none, [], []⟩
     { envNoCapacity with hasIndex := true } stIndexed rfl (Or.inl rfl) rfl rfl (by decide)
     rfl rfl rfl).2.2⟩

/-! ### Claim C10 -/

/-- Claim C10: a request with `splitter = 'langchain'` passes validation
(only values other than `'ast'` and `'langchain'` are rejected with the
invalid-splitter error), but the background task logs a fallback warning
and indexes with the AST splitter - the langchain splitter is never used
for indexing (every `indexCodebase` invocation in the trace carries the
AST splitter). -/
theorem c10_langchain_accepted_but_ast_used (a : IndexArgs) (env : Env) (st : MState)
    (hsp : a.splitter = some splitterLangchain)
    (hforce : a.force.getD false = false)
    (hex : env.pathExists = true)
    (hdir : env.isDirectory = true)
    (hnotIndexing : ¬ getCodebaseStatus a.path st.mem = .indexing)
    (hnotIndexed : ¬ getCodebaseStatus a.path st.mem = .indexed)
    (hcap : env.checkCollectionLimit = .ok true)
    (hprep : env.bg.prepError = none) :
    (handleIndexCodebaseBody a env st).1.isError = false
    ∧ Ev.fallbackWarnEv splitterLangchain ∈ (handleIndexCodebaseBody a env st).2.2
    ∧ Ev.indexCallEv a.path splitterAst ∈ (handleIndexCodebaseBody a env st).2.2
    ∧ (∀ s, Ev.indexCallEv a.path s ∈ (handleIndexCodebaseBody a env st).2.2
        → s = splitterAst)
    ∧ (∀ s2, ¬ s2 = splitterAst → ¬ s2 = splitterLangchain →
        (handleIndexCodebaseBody { a with splitter := some s2 } env st).1
          = mkError (invalidSplitterMsg s2)) := by
  have hrej : ∀ s2, ¬ s2 = splitterAst → ¬ s2 = splitterLangchain →
      (handleIndexCodebaseBody { a with splitter := some s2 } env st).1
        = mkError (invalidSplitterMsg s2) := by
    intro s2 hA hL
    unfold handleIndexCodebaseBody handleIndexAfterSync
    rw [if_pos (by exact ⟨by simpa using hA, by simpa using hL⟩)]
    simp
  have hnI1 : ¬ getCodebaseStatus a.path (syncFromCloud env.cloud st).mem = .indexing :=
    syncFromCloud_status_ne env.cloud st a.path (by simp) hnotIndexing
  have hmem1 : ¬ a.path ∈ getIndexingCodebases (syncFromCloud env.cloud st).mem :=
    fun h => hnI1 ((mem_getIndexingCodebases _ _).mp h)
  have hnd1 : ¬ a.path ∈ getIndexedCodebases (syncFromCloud env.cloud st).mem :=
    fun h => (syncFromCloud_status_ne env.cloud st a.path (by simp) hnotIndexed)
      ((mem_getIndexedCodebases _ _).mp h)
  have h1 : ¬ (¬ a.splitter.getD splitterAst = splitterAst
      ∧ ¬ a.splitter.getD splitterAst = splitterLangchain) := by
    rw [hsp]; simp
  have h5 : ¬ (¬ a.force.getD false = true
      ∧ a.path ∈ getIndexedCodebases (syncFromCloud env.cloud st).mem) :=
    fun hc => hnd1 hc.2
  have hdo : ¬ (a.force.getD false = true
      ∧ a.path ∈ getIndexedCodebases (syncFromCloud env.cloud st).mem) := by
    rw [hforce]; simp
  have hfh : ¬ (a.force.getD false = true ∧ env.hasIndex = true) := by
    rw [hforce]; simp
  have hmain : (handleIndexCodebaseBody a env st).1.isError = false
      ∧ Ev.fallbackWarnEv splitterLangchain ∈ (handleIndexCodebaseBody a env st).2.2
      ∧ Ev.indexCallEv a.path splitterAst ∈ (handleIndexCodebaseBody a env st).2.2
      ∧ (∀ s, Ev.indexCallEv a.path s ∈ (handleIndexCodebaseBody a env st).2.2
          → s = splitterAst) := by
    unfold handleIndexCodebaseBody handleIndexAfterSync
    rw [if_neg h1]
    dsimp only [ensureAbsolutePath]
    rw [if_neg (show ¬ ¬ env.pathExists = true by simp [hex]),
        if_neg (show ¬ ¬ env.isDirectory = true by simp [hdir]),
        if_neg hmem1, if_neg h5, if_neg hdo, if_neg hdo, if_neg hfh]
    unfold afterPreflight
    rw [hcap]
    unfold startBackgroundIndexing
    rw [hprep, hsp]
    dsimp only [Option.getD]
    rw [if_neg (show ¬ splitterLangchain = splitterAst by simp [splitterAst, splitterLangchain])]
    cases hres : env.bg.result with
    | error e =>
      refine ⟨rfl, by simp, by simp, ?_⟩
      intro s hs
      simp at hs
      rcases hs with h | h
      · exact h
      · exact absurd h (indexCallEv_mem_progressTrace_elim a.path a.path s env.bg.progress)
    | ok stats =>
      refine ⟨rfl, by simp, by simp, ?_⟩
      intro s hs
      simp at hs
      rcases hs with h | h
      · exact h
      · exact absurd h (indexCallEv_mem_progressTrace_elim a.path a.path s env.bg.progress)
  exact ⟨hmain.1, hmain.2.1, hmain.2.2.1, hmain.2.2.2, hrej⟩

/-- Claim C10, witness: a concrete langchain-splitter request on the
empty state is accepted, and the run emits the fallback warning. -/
theorem c10_langchain_accepted_but_ast_used_witness :
    (handleIndexCodebaseBody ⟨pathRepo, none, some splitterLangchain, [], []⟩
        envPlain stEmpty).1.isError = false
    ∧ Ev.fallbackWarnEv splitterLangchain
        ∈ (handleIndexCodebaseBody ⟨pathRepo, none, some splitterLangchain, [], []⟩
            envPlain stEmpty).2.2 :=
  ⟨(c10_langchain_accepted_but_ast_used ⟨pathRepo, none, some splitterLangchain, [], []⟩
      envPlain stEmpty rfl rfl rfl rfl (by decide) (by decide) rfl rfl).1,
   (c10_langchain_accepted_but_ast_used ⟨pathRepo, none, some splitterLangchain, [], []⟩
      envPlain stEmpty rfl rfl rfl rfl (by decide) (by decide) rfl rfl).2.1⟩

/-! ### Claim C5 -/

/-- Claim C5, counterexample.  The claim states that for *every* input,
including malformed or missing argument objects, no exception escapes any
of the four public handlers.  But each handler destructures `args`
*before* its `try` block opens (`handlers.ts` lines 148/154, 418/421,
575/586, 695/697), so calling any of them with a `null`/`undefined`
argument object throws a `TypeError` that escapes to the caller - an
`Except.error` here, hence `isOk = false` for all four. -/
theorem c5_counterexample :
    (handleIndexCodebaseOp none envPlain stEmpty).isOk = false
    ∧ (handleSearchCodeOp none envPlain stEmpty).isOk = false
    ∧ (handleClearIndexOp none envPlain stEmpty).isOk = false
    ∧ (handleGetIndexingStatusOp none envPlain stEmpty).isOk = false :=
  ⟨rfl, rfl, rfl, rfl⟩

/-- Claim C5, amended: for every *present* (non-null) argument object -
however malformed its fields - and every environment, including ones in
which any external call throws, each of the four public handlers returns
a structured result and no exception escapes to its caller; only a
`null`/`undefined` argument object makes the pre-`try` destructuring
throw out of the handler. -/
theorem c5_present_args_never_throw (ia : IndexArgs) (sa : SearchArgs) (ca ga : PathArgs)
    (env : Env) (st : MState) :
    (handleIndexCodebaseOp (some ia) env st).isOk = true
    ∧ (handleSearchCodeOp (some sa) env st).isOk = true
    ∧ (handleClearIndexOp (some ca) env st).isOk = true
    ∧ (handleGetIndexingStatusOp (some ga) env st).isOk = true :=
  ⟨rfl, rfl, rfl, rfl⟩

end ClaudeContext
